import Mathlib

/-!
Verification of the client-side cart/basket state container of an
e-commerce storefront, together with its payment-webhook stub.

The cart store (`src/store/store.ts`) and the basket store keep an ordered
list of `{ product, quantity }` entries and expose `addItem`, `removeItem`,
`clearCart`/`clearBasket`, `getTotalPrice`, `getItemCount` and
`getGroupedItems`.  We embed both stores shallowly: a store state is the
list of items, each mutation is a pure function from states to states
(the Zustand `set` wrapper and the localStorage persistence middleware
are the only side effects of the source and are not modelled), and each
query is a pure function of the state (in the source the queries only
call `get()` and never `set`, so they cannot change the state).

JavaScript numbers are modelled as exact arithmetic: quantities as `Int`
(the store only ever produces small positive integers) and prices as `Rat`.
String comparison `===` is modelled by `==` on `String`.
-/

/-- Product record as consumed by the stores: a unique identifier `_id`,
an optional numeric `price` (the stores read nothing else), and a stand-in
`name` field for the display attributes the stores never touch. -/
structure Product where
  _id : String
  price : Option ℚ
  name : Option String
deriving DecidableEq, Repr

/-- Item of the shopping cart: a product together with its quantity
(`CartItem` in `src/store/store.ts`). -/
structure CartItem where
  product : Product
  quantity : ℤ
deriving DecidableEq, Repr

/-- The cart store state is its ordered list of items. -/
abbrev CartState := List CartItem

namespace CartStore

/-- Embedding of `addItem` from `src/store/store.ts`: if an entry with
`product._id` already exists, every entry whose id matches gets its
quantity incremented (the source maps over the whole list); otherwise the
new entry `{ product, quantity: 1 }` is appended. -/
def addItem (state : CartState) (product : Product) : CartState :=
  match state.find? (fun item => item.product._id == product._id) with
  | some _ =>
      state.map (fun item =>
        if item.product._id == product._id then
          { item with quantity := item.quantity + 1 }
        else item)
  | none => state ++ [{ product := product, quantity := 1 }]

/-- Embedding of `removeItem` from `src/store/store.ts`: a left fold that
pushes every entry, except that an entry matching `productId` is pushed
with quantity decremented when its quantity exceeds 1 and dropped
otherwise. -/
def removeItem (state : CartState) (productId : String) : CartState :=
  state.foldl
    (fun acc item =>
      if item.product._id == productId then
        if item.quantity > 1 then
          acc ++ [{ item with quantity := item.quantity - 1 }]
        else acc
      else acc ++ [item])
    []

/-- Embedding of `clearCart`: resets the item list to empty. -/
def clearCart (_state : CartState) : CartState := []

/-- Embedding of `getTotalPrice`: a left fold accumulating
`(item.product.price ?? 0) * item.quantity`. -/
def getTotalPrice (state : CartState) : ℚ :=
  state.foldl
    (fun total item => total + (item.product.price.getD 0) * (item.quantity : ℚ))
    0

/-- Embedding of `getItemCount`: the quantity of the first entry whose
product id matches `productId`, or 0 when there is none. -/
def getItemCount (state : CartState) (productId : String) : ℤ :=
  match state.find? (fun item => item.product._id == productId) with
  | some item => item.quantity
  | none => 0

/-- Embedding of `getGroupedItems`: returns the item list itself. -/
def getGroupedItems (state : CartState) : List CartItem := state

end CartStore

/-- Item of the shopping basket (`BasketItem` in the duplicate basket
store): the same shape as `CartItem`, declared separately because the
source declares it separately. -/
structure BasketItem where
  product : Product
  quantity : ℤ
deriving DecidableEq, Repr

/-- The basket store state is its ordered list of items. -/
abbrev BasketState := List BasketItem

namespace BasketStore

/-- Embedding of `addItem` from the basket store source. -/
def addItem (state : BasketState) (product : Product) : BasketState :=
  match state.find? (fun item => item.product._id == product._id) with
  | some _ =>
      state.map (fun item =>
        if item.product._id == product._id then
          { item with quantity := item.quantity + 1 }
        else item)
  | none => state ++ [{ product := product, quantity := 1 }]

/-- Embedding of `removeItem` from the basket store source. -/
def removeItem (state : BasketState) (productId : String) : BasketState :=
  state.foldl
    (fun acc item =>
      if item.product._id == productId then
        if item.quantity > 1 then
          acc ++ [{ item with quantity := item.quantity - 1 }]
        else acc
      else acc ++ [item])
    []

/-- Embedding of `clearBasket`: resets the item list to empty. -/
def clearBasket (_state : BasketState) : BasketState := []

/-- Embedding of `getTotalPrice` from the basket store. -/
def getTotalPrice (state : BasketState) : ℚ :=
  state.foldl
    (fun total item => total + (item.product.price.getD 0) * (item.quantity : ℚ))
    0

/-- Embedding of `getItemCount` from the basket store. -/
def getItemCount (state : BasketState) (productId : String) : ℤ :=
  match state.find? (fun item => item.product._id == productId) with
  | some item => item.quantity
  | none => 0

/-- Embedding of `getGroupedItems` from the basket store. -/
def getGroupedItems (state : BasketState) : List BasketItem := state

end BasketStore

/-- A mutation request made to either store: the common operation alphabet
of the cart and the basket contract. -/
inductive StoreOp where
  | add (p : Product)
  | remove (id : String)
  | clear
deriving DecidableEq, Repr

namespace CartStore

/-- Interpretation of one operation on the cart store. -/
def step (state : CartState) : StoreOp → CartState
  | .add p => addItem state p
  | .remove id => removeItem state id
  | .clear => clearCart state

/-- Run a sequence of operations on the cart store from the empty state. -/
def run (ops : List StoreOp) : CartState := ops.foldl step []

end CartStore

namespace BasketStore

/-- Interpretation of one operation on the basket store
(`clear` is its `clearBasket`). -/
def step (state : BasketState) : StoreOp → BasketState
  | .add p => addItem state p
  | .remove id => removeItem state id
  | .clear => clearBasket state

/-- Run a sequence of operations on the basket store from the empty state. -/
def run (ops : List StoreOp) : BasketState := ops.foldl step []

end BasketStore

/-- Identification between the item records of the two stores, used to compare the
sequences they produce. -/
def BasketItem.toCartItem (item : BasketItem) : CartItem :=
  { product := item.product, quantity := item.quantity }

/-- Response produced by the webhook handler when it returns one:
an HTTP status together with the `error` field of the JSON body. -/
structure WebhookResponse where
  status : ℕ
  error : String
deriving DecidableEq, Repr

namespace Webhook

/-- JavaScript truthiness of a nullable string: `null` and the empty
string are falsy, every other string is truthy. -/
def truthy : Option String → Bool
  | none => false
  | some s => !(s == "")

/-- Embedding of the `POST` handler of `src/app/(store)/webhook/route.ts`.
Inputs are the request body, the `stripe-signature` header (`none` when
absent) and the `STRIPE_WEBHOOK_SECRET` environment variable (`none` when
unset).  The source reads the body, returns a 400 response when `!sig`,
returns a 400 response when `!webhookSecret`, and otherwise falls off the
end of the function, returning `undefined` (modelled as `none`).  It never
verifies the signature and never inspects the body. -/
def POST (body : String) (sig : Option String)
    (webhookSecret : Option String) : Option WebhookResponse :=
  let _ := body
  if !(truthy sig) then
    some { status := 400, error := "No signature" }
  else if !(truthy webhookSecret) then
    some { status := 400, error := "Stripe webhook secret is not set" }
  else
    none

end Webhook

namespace CartStore

/-- One step of `removeItem` viewed entrywise: an entry matching the id is
decremented when its quantity exceeds 1 and dropped otherwise; every other
entry is kept. -/
def removeStep (productId : String) (item : CartItem) : Option CartItem :=
  if item.product._id == productId then
    if item.quantity > 1 then some { item with quantity := item.quantity - 1 }
    else none
  else some item

lemma removeItem_foldl_aux (productId : String) (l : List CartItem) :
    ∀ acc : List CartItem,
      List.foldl
        (fun acc item =>
          if item.product._id == productId then
            if item.quantity > 1 then
              acc ++ [{ item with quantity := item.quantity - 1 }]
            else acc
          else acc ++ [item])
        acc l
      = acc ++ l.filterMap (removeStep productId) := by
  induction l with
  | nil => intro acc; simp
  | cons x xs ih =>
      intro acc
      rw [List.foldl_cons, ih]
      by_cases hb : x.product._id = productId
      · by_cases hq : x.quantity > 1
        · simp [removeStep, hb, hq]
        · simp [removeStep, hb, hq]
      · simp [removeStep, hb]

/-- The `reduce`-based `removeItem` is entrywise filtering. -/
lemma removeItem_eq_filterMap (state : CartState) (productId : String) :
    removeItem state productId = state.filterMap (removeStep productId) := by
  have h := removeItem_foldl_aux productId state
  simpa [removeItem] using h []

lemma find?_append_of_none {α : Type} (pred : α → Bool) {l₁ : List α}
    (h : l₁.find? pred = none) (l₂ : List α) :
    (l₁ ++ l₂).find? pred = l₂.find? pred := by
  induction l₁ with
  | nil => simp
  | cons x xs ih =>
      rw [List.find?_cons] at h
      cases hb : pred x with
      | false =>
          rw [hb] at h
          simpa [List.find?_cons, hb] using ih h
      | true => rw [hb] at h; cases h

lemma find?_map_of_id_preserving (pid : String) (f : CartItem → CartItem)
    (hf : ∀ it, (f it).product._id = it.product._id) (l : List CartItem) :
    (l.map f).find? (fun it => it.product._id == pid)
      = (l.find? (fun it => it.product._id == pid)).map f := by
  induction l with
  | nil => simp
  | cons x xs ih =>
      simp only [List.map_cons, List.find?_cons, hf x]
      cases hb : x.product._id == pid with
      | false => simpa [hb] using ih
      | true => simp [hb]

lemma filterMap_removeStep_of_absent (id : String) :
    ∀ l : List CartItem, (∀ it ∈ l, it.product._id ≠ id) →
      l.filterMap (removeStep id) = l := by
  intro l
  induction l with
  | nil => intro _; simp
  | cons x xs ih =>
      intro h
      have hx : x.product._id ≠ id := h x (List.mem_cons_self x xs)
      have hxs := ih (fun it hit => h it (List.mem_cons_of_mem _ hit))
      simp [removeStep, hx, hxs]

lemma map_if_of_absent (id : String) (g : CartItem → CartItem) :
    ∀ l : List CartItem, (∀ it ∈ l, it.product._id ≠ id) →
      l.map (fun it => if it.product._id == id then g it else it) = l := by
  intro l
  induction l with
  | nil => intro _; simp
  | cons x xs ih =>
      intro h
      have hx : x.product._id ≠ id := h x (List.mem_cons_self x xs)
      have hxs := ih (fun it hit => h it (List.mem_cons_of_mem _ hit))
      simpa [hx] using hxs

lemma filter_of_absent (id : String) :
    ∀ l : List CartItem, (∀ it ∈ l, it.product._id ≠ id) →
      l.filter (fun it => !(it.product._id == id)) = l := by
  intro l
  induction l with
  | nil => intro _; simp
  | cons x xs ih =>
      intro h
      have hx : x.product._id ≠ id := h x (List.mem_cons_self x xs)
      have hxs := ih (fun it hit => h it (List.mem_cons_of_mem _ hit))
      simp [List.filter_cons, hx, hxs]

lemma exists_of_find?_eq_some {α : Type} (pred : α → Bool) :
    ∀ {l : List α} {e : α}, l.find? pred = some e →
      ∃ l₁ l₂, l = l₁ ++ e :: l₂ ∧ (∀ x ∈ l₁, ¬ pred x) ∧ pred e := by
  intro l
  induction l with
  | nil => intro e h; cases h
  | cons x xs ih =>
      intro e h
      cases hb : pred x with
      | true =>
          rw [List.find?_cons_of_pos _ hb] at h
          injection h with h
          subst h
          exact ⟨[], xs, rfl, by simp, hb⟩
      | false =>
          rw [List.find?_cons_of_neg _ (by simp [hb])] at h
          obtain ⟨l₁, l₂, rfl, h1, h2⟩ := ih h
          exact ⟨x :: l₁, l₂, rfl, by
            intro y hy
            rcases List.mem_cons.mp hy with hy | hy
            · subst hy; simp [hb]
            · exact h1 y hy, h2⟩

lemma removeStep_some (id : String) {a b : CartItem}
    (h : removeStep id a = some b) :
    b.product = a.product ∧ (b = a ∨ (1 < a.quantity ∧ b.quantity = a.quantity - 1)) := by
  by_cases hb : a.product._id = id
  · by_cases hq : a.quantity > 1
    · simp only [removeStep, hb] at h
      simp only [beq_self_eq_true, if_true, hq, if_pos] at h
      cases h
      exact ⟨rfl, Or.inr ⟨hq, rfl⟩⟩
    · simp [removeStep, hb, hq] at h
  · simp only [removeStep] at h
    rw [if_neg (by simpa using hb)] at h
    cases h
    exact ⟨rfl, Or.inl rfl⟩

lemma ids_filterMap_removeStep_sublist (id : String) :
    ∀ l : List CartItem,
      ((l.filterMap (removeStep id)).map (fun it => it.product._id)).Sublist
        (l.map (fun it => it.product._id)) := by
  intro l
  induction l with
  | nil => simp
  | cons x xs ih =>
      rw [List.filterMap_cons]
      cases hs : removeStep id x with
      | none =>
          rw [List.map_cons]
          exact ih.cons _
      | some y =>
          rw [List.map_cons, List.map_cons,
            (removeStep_some id hs).1]
          exact ih.cons₂ _

/-- The count query as a composition on the `find?` result. -/
lemma getItemCount_eq_find? (state : CartState) (pid : String) :
    getItemCount state pid
      = ((state.find? (fun it => it.product._id == pid)).map
          (fun it => it.quantity)).getD 0 := by
  cases h : state.find? (fun it => it.product._id == pid) with
  | none => simp [getItemCount, h]
  | some e => simp [getItemCount, h]

end CartStore

/-- C1: for every cart state and product `P`, `addItem P` increases
`getItemCount P._id` by exactly 1; when no entry with `P._id` exists the
new entry of quantity 1 is appended at the end, and when one exists the
matching entries are incremented in place, positions preserved. -/
theorem C1_addItem_count (s : CartState) (p : Product) :
    CartStore.getItemCount (CartStore.addItem s p) p._id
      = CartStore.getItemCount s p._id + 1
  ∧ ((∀ it ∈ s, it.product._id ≠ p._id) →
      CartStore.addItem s p = s ++ [{ product := p, quantity := 1 }])
  ∧ ((∃ it ∈ s, it.product._id = p._id) →
      CartStore.addItem s p
        = s.map (fun it =>
            if it.product._id == p._id then
              { it with quantity := it.quantity + 1 }
            else it)) := by
  refine ⟨?_, ?_, ?_⟩
  · cases h : s.find? (fun it => it.product._id == p._id) with
    | none =>
        have hadd : CartStore.addItem s p
            = s ++ [{ product := p, quantity := 1 }] := by
          simp only [CartStore.addItem, h]
        rw [CartStore.getItemCount_eq_find?, CartStore.getItemCount_eq_find?,
          hadd, CartStore.find?_append_of_none _ h, h]
        simp
    | some e =>
        have he : e.product._id = p._id := by simpa using List.find?_some h
        have hadd : CartStore.addItem s p
            = s.map (fun it =>
                if it.product._id == p._id then
                  { it with quantity := it.quantity + 1 }
                else it) := by
          simp only [CartStore.addItem, h]
        rw [CartStore.getItemCount_eq_find?, CartStore.getItemCount_eq_find?,
          hadd, CartStore.find?_map_of_id_preserving p._id _ ?_ s, h]
        · simp [he]
        · intro it
          by_cases hb : it.product._id = p._id <;> simp [hb]
  · intro habs
    have h : s.find? (fun it => it.product._id == p._id) = none := by
      rw [List.find?_eq_none]
      intro it hit
      simpa using habs it hit
    simp only [CartStore.addItem, h]
  · intro hex
    obtain ⟨it, hit, hid⟩ := hex
    cases h : s.find? (fun it => it.product._id == p._id) with
    | none =>
        rw [List.find?_eq_none] at h
        exact absurd (by simpa using hid) (by simpa using h it hit)
    | some e => simp only [CartStore.addItem, h]

/-- Witness for C1 at a concrete input: adding a product twice to the
empty cart yields count 2, and the first add appends the singleton. -/
theorem C1_addItem_count_witness :
    CartStore.getItemCount
        (CartStore.addItem (CartStore.addItem [] ⟨"a", some 10, none⟩)
          ⟨"a", some 10, none⟩) "a" = 2
  ∧ CartStore.addItem [] ⟨"a", some 10, none⟩
      = [{ product := ⟨"a", some 10, none⟩, quantity := 1 }] := by
  constructor
  · have h1 := (C1_addItem_count [] ⟨"a", some 10, none⟩).1
    have h2 := (C1_addItem_count
      (CartStore.addItem [] ⟨"a", some 10, none⟩) ⟨"a", some 10, none⟩).1
    rw [h2, h1]
    decide
  · exact (C1_addItem_count [] ⟨"a", some 10, none⟩).2.1 (by simp)

lemma foldl_add_eq_sum {α : Type} (g : α → ℚ) :
    ∀ (l : List α) (a : ℚ), l.foldl (fun t x => t + g x) a = a + (l.map g).sum := by
  intro l
  induction l with
  | nil => intro a; simp
  | cons x xs ih =>
      intro a
      rw [List.foldl_cons, ih, List.map_cons, List.sum_cons, add_assoc]

/-- C4: `getTotalPrice` is the sum over all entries of
`(price or 0) * quantity`, a missing price counting as zero.  It is a pure
function of the state: the source computes it from `get()` alone and never
calls `set`, which the embedding reflects by typing it `CartState → ℚ`. -/
theorem C4_getTotalPrice_sum (s : CartState) :
    CartStore.getTotalPrice s
      = (s.map (fun it => (it.product.price.getD 0) * (it.quantity : ℚ))).sum := by
  have h := foldl_add_eq_sum
    (fun it : CartItem => (it.product.price.getD 0) * (it.quantity : ℚ)) s 0
  simpa [CartStore.getTotalPrice] using h

/-- C6: `removeItem` with an identifier matching no entry leaves the item
sequence unchanged. -/
theorem C6_removeItem_absent (s : CartState) (id : String)
    (h : ∀ it ∈ s, it.product._id ≠ id) :
    CartStore.removeItem s id = s := by
  rw [CartStore.removeItem_eq_filterMap]
  exact CartStore.filterMap_removeStep_of_absent id s h

/-- Witness for C6: removing id `"b"` from a cart holding only id `"a"`
changes nothing. -/
theorem C6_removeItem_absent_witness :
    CartStore.removeItem [{ product := ⟨"a", some 10, none⟩, quantity := 1 }] "b"
      = [{ product := ⟨"a", some 10, none⟩, quantity := 1 }] :=
  C6_removeItem_absent _ "b" (by simp)

/-- C7: after `clearCart`, `getGroupedItems` returns the empty sequence,
whatever the prior state was. -/
theorem C7_clearCart_grouped (s : CartState) :
    CartStore.getGroupedItems (CartStore.clearCart s) = [] := rfl

/-- C2: on a cart state satisfying the data-model invariant (distinct ids,
quantities at least 1) and containing an entry with identifier `id`,
`removeItem id` makes `getItemCount id` drop by exactly 1; the entry is
decremented in place when its quantity exceeds 1 and removed entirely when
its quantity is 1. -/
theorem C2_removeItem_count (s : CartState) (id : String)
    (huniq : (s.map (fun it => it.product._id)).Nodup)
    (hpos : ∀ it ∈ s, 1 ≤ it.quantity)
    (hmem : ∃ it ∈ s, it.product._id = id) :
    CartStore.getItemCount (CartStore.removeItem s id) id
      = CartStore.getItemCount s id - 1
  ∧ (1 < CartStore.getItemCount s id →
      CartStore.removeItem s id
        = s.map (fun it =>
            if it.product._id == id then { it with quantity := it.quantity - 1 }
            else it))
  ∧ (CartStore.getItemCount s id = 1 →
      CartStore.removeItem s id
        = s.filter (fun it => !(it.product._id == id))) := by
  cases hfind : s.find? (fun it => it.product._id == id) with
  | none =>
      exfalso
      rw [List.find?_eq_none] at hfind
      obtain ⟨it, hit, hid⟩ := hmem
      exact hfind it hit (by simpa using hid)
  | some e =>
      obtain ⟨l₁, l₂, rfl, h1, h2⟩ :=
        CartStore.exists_of_find?_eq_some _ hfind
      have heid : e.product._id = id := by simpa using h2
      have h1' : ∀ x ∈ l₁, x.product._id ≠ id := fun x hx => by
        simpa using h1 x hx
      have h2' : ∀ x ∈ l₂, x.product._id ≠ id := by
        rw [List.map_append, List.map_cons] at huniq
        have hr := (List.nodup_append.mp huniq).2.1
        have hnot : e.product._id ∉ l₂.map (fun it => it.product._id) :=
          (List.nodup_cons.mp hr).1
        intro x hx hxe
        have hmem2 : x.product._id ∈ l₂.map (fun it => it.product._id) :=
          List.mem_map_of_mem _ hx
        rw [hxe, ← heid] at hmem2
        exact hnot hmem2
      have hfind1 : l₁.find? (fun it => it.product._id == id) = none := by
        rw [List.find?_eq_none]
        intro x hx
        simpa using h1' x hx
      have hcount : CartStore.getItemCount (l₁ ++ e :: l₂) id = e.quantity := by
        rw [CartStore.getItemCount_eq_find?, hfind]
        simp
      have hq1 : 1 ≤ e.quantity := hpos e (by simp)
      by_cases hq : 1 < e.quantity
      · have hstep : CartStore.removeStep id e
            = some { e with quantity := e.quantity - 1 } := by
          simp [CartStore.removeStep, heid, hq]
        have hrm : CartStore.removeItem (l₁ ++ e :: l₂) id
            = l₁ ++ { e with quantity := e.quantity - 1 } :: l₂ := by
          rw [CartStore.removeItem_eq_filterMap, List.filterMap_append,
            CartStore.filterMap_removeStep_of_absent id l₁ h1',
            List.filterMap_cons, hstep,
            CartStore.filterMap_removeStep_of_absent id l₂ h2']
        refine ⟨?_, ?_, ?_⟩
        · rw [hrm, hcount, CartStore.getItemCount_eq_find?,
            CartStore.find?_append_of_none _ hfind1,
            List.find?_cons_of_pos _ (by simpa using heid)]
          simp
        · intro _
          rw [hrm, List.map_append, List.map_cons,
            CartStore.map_if_of_absent id _ l₁ h1',
            CartStore.map_if_of_absent id _ l₂ h2']
          simp [heid]
        · intro hc1
          rw [hcount] at hc1
          omega
      · have he1 : e.quantity = 1 := by omega
        have hstep : CartStore.removeStep id e = none := by
          simp [CartStore.removeStep, heid, hq]
        have hrm : CartStore.removeItem (l₁ ++ e :: l₂) id = l₁ ++ l₂ := by
          rw [CartStore.removeItem_eq_filterMap, List.filterMap_append,
            CartStore.filterMap_removeStep_of_absent id l₁ h1',
            List.filterMap_cons, hstep,
            CartStore.filterMap_removeStep_of_absent id l₂ h2']
        refine ⟨?_, ?_, ?_⟩
        · have hnone : (l₁ ++ l₂).find? (fun it => it.product._id == id)
              = none := by
            rw [List.find?_eq_none]
            intro x hx
            rcases List.mem_append.mp hx with hx | hx
            · simpa using h1' x hx
            · simpa using h2' x hx
          rw [hrm, hcount, he1, CartStore.getItemCount_eq_find?, hnone]
          simp
        · intro hc
          rw [hcount, he1] at hc
          omega
        · intro _
          rw [hrm, List.filter_append, List.filter_cons,
            CartStore.filter_of_absent id l₁ h1',
            CartStore.filter_of_absent id l₂ h2']
          simp [heid]

/-- Witness for C2: removing from a one-entry cart of quantity 2 yields
count 1, and removing from a one-entry cart of quantity 1 empties it. -/
theorem C2_removeItem_count_witness :
    CartStore.getItemCount
        (CartStore.removeItem
          [{ product := ⟨"a", some 10, none⟩, quantity := 2 }] "a") "a" = 1
  ∧ CartStore.removeItem
        [{ product := ⟨"a", some 10, none⟩, quantity := 1 }] "a" = [] := by
  constructor
  · have h := (C2_removeItem_count
      [{ product := ⟨"a", some 10, none⟩, quantity := 2 }] "a"
      (by simp) (by simp)
      ⟨{ product := ⟨"a", some 10, none⟩, quantity := 2 }, by simp, rfl⟩).1
    rw [h]
    decide
  · have h := (C2_removeItem_count
      [{ product := ⟨"a", some 10, none⟩, quantity := 1 }] "a"
      (by simp) (by simp)
      ⟨{ product := ⟨"a", some 10, none⟩, quantity := 1 }, by simp, rfl⟩).2.2
      (by decide)
    rw [h]
    decide

/-- Data-model invariant of the spec on a cart state: no two entries share a
product id, and every quantity is at least 1. -/
def CartInvariant (s : CartState) : Prop :=
  (s.map (fun it => it.product._id)).Nodup ∧ ∀ it ∈ s, 1 ≤ it.quantity

/-- Cart states reachable from the empty state by any sequence of the
mutations of the store. -/
inductive Reachable : CartState → Prop where
  | empty : Reachable []
  | add (p : Product) {s : CartState} :
      Reachable s → Reachable (CartStore.addItem s p)
  | remove (id : String) {s : CartState} :
      Reachable s → Reachable (CartStore.removeItem s id)
  | clear {s : CartState} :
      Reachable s → Reachable (CartStore.clearCart s)

lemma cartInvariant_addItem (p : Product) {s : CartState}
    (h : CartInvariant s) : CartInvariant (CartStore.addItem s p) := by
  obtain ⟨hn, hq⟩ := h
  cases hfind : s.find? (fun it => it.product._id == p._id) with
  | none =>
      have habs : p._id ∉ s.map (fun it => it.product._id) := by
        rw [List.find?_eq_none] at hfind
        intro hmem
        obtain ⟨it, hit, hid⟩ := List.mem_map.mp hmem
        exact hfind it hit (by simpa using hid)
      have hadd : CartStore.addItem s p
          = s ++ [{ product := p, quantity := 1 }] := by
        simp only [CartStore.addItem, hfind]
      constructor
      · rw [hadd, List.map_append]
        simp only [List.map_cons, List.map_nil]
        rw [List.nodup_append]
        refine ⟨hn, by simp, ?_⟩
        intro a ha
        simp only [List.mem_singleton]
        intro hb
        subst hb
        exact habs ha
      · intro it hit
        rw [hadd] at hit
        rcases List.mem_append.mp hit with hit | hit
        · exact hq it hit
        · simp only [List.mem_singleton] at hit
          subst hit
          simp
  | some e =>
      have hadd : CartStore.addItem s p
          = s.map (fun it =>
              if it.product._id == p._id then
                { it with quantity := it.quantity + 1 }
              else it) := by
        simp only [CartStore.addItem, hfind]
      constructor
      · rw [hadd, List.map_map]
        have : ((fun it => it.product._id) ∘ fun it : CartItem =>
            if it.product._id == p._id then
              { it with quantity := it.quantity + 1 }
            else it) = fun it : CartItem => it.product._id := by
          funext it
          by_cases hb : it.product._id = p._id <;> simp [hb]
        rw [this]
        exact hn
      · intro it hit
        rw [hadd] at hit
        obtain ⟨a, ha, rfl⟩ := List.mem_map.mp hit
        have hqa := hq a ha
        by_cases hb : a.product._id = p._id
        · rw [if_pos (by simpa using hb)]
          simp only
          omega
        · rw [if_neg (by simpa using hb)]
          exact hqa

lemma cartInvariant_removeItem (id : String) {s : CartState}
    (h : CartInvariant s) : CartInvariant (CartStore.removeItem s id) := by
  obtain ⟨hn, hq⟩ := h
  rw [CartStore.removeItem_eq_filterMap]
  constructor
  · exact List.Nodup.sublist
      (CartStore.ids_filterMap_removeStep_sublist id s) hn
  · intro it hit
    obtain ⟨a, ha, hstep⟩ := List.mem_filterMap.mp hit
    have hqa := hq a ha
    rcases (CartStore.removeStep_some id hstep).2 with hcase | ⟨hgt, hdec⟩
    · subst hcase; exact hqa
    · omega

/-- C3: every cart state reachable from the empty state by `addItem`,
`removeItem` and `clearCart` has pairwise-distinct product ids and every
quantity at least 1. -/
theorem C3_reachable_invariant (s : CartState) (h : Reachable s) :
    CartInvariant s := by
  induction h with
  | empty => exact ⟨by simp, by simp⟩
  | add p _ ih => exact cartInvariant_addItem p ih
  | remove id _ ih => exact cartInvariant_removeItem id ih
  | clear _ _ =>
      exact ⟨by simp [CartStore.clearCart], by simp [CartStore.clearCart]⟩

/-- Witness for C3: the invariant holds for the concrete reachable state
built by two adds and a remove. -/
theorem C3_reachable_invariant_witness :
    CartInvariant
      (CartStore.removeItem
        (CartStore.addItem
          (CartStore.addItem [] ⟨"a", some 10, none⟩) ⟨"b", some 5, none⟩)
        "a") :=
  C3_reachable_invariant _
    (Reachable.remove "a"
      (Reachable.add ⟨"b", some 5, none⟩
        (Reachable.add ⟨"a", some 10, none⟩ Reachable.empty)))

/-- C9: when an entry with `P._id` already exists, `addItem P` touches only
quantities: the sequence of stored product records is unchanged, so the
entry keeps the product originally added (and `getTotalPrice` keeps
pricing from that stored product, not from the later argument). -/
theorem C9_addItem_keeps_stored_product (s : CartState) (p : Product)
    (h : ∃ it ∈ s, it.product._id = p._id) :
    (CartStore.addItem s p).map (fun it => it.product)
      = s.map (fun it => it.product)
  ∧ CartStore.addItem s p
      = s.map (fun it =>
          if it.product._id == p._id then
            { it with quantity := it.quantity + 1 }
          else it) := by
  cases hfind : s.find? (fun it => it.product._id == p._id) with
  | none =>
      exfalso
      rw [List.find?_eq_none] at hfind
      obtain ⟨it, hit, hid⟩ := h
      exact hfind it hit (by simpa using hid)
  | some e =>
      have hadd : CartStore.addItem s p
          = s.map (fun it =>
              if it.product._id == p._id then
                { it with quantity := it.quantity + 1 }
              else it) := by
        simp only [CartStore.addItem, hfind]
      refine ⟨?_, hadd⟩
      rw [hadd, List.map_map]
      congr 1
      funext it
      by_cases hb : it.product._id = p._id <;> simp [hb]

/-- Witness for C9: re-adding id `"a"` with a different price leaves the
stored product (price 10) in place. -/
theorem C9_addItem_keeps_stored_product_witness :
    (CartStore.addItem [{ product := ⟨"a", some 10, none⟩, quantity := 1 }]
        ⟨"a", some 99, none⟩).map (fun it => it.product)
      = [⟨"a", some 10, none⟩] := by
  have h := (C9_addItem_keeps_stored_product
    [{ product := ⟨"a", some 10, none⟩, quantity := 1 }] ⟨"a", some 99, none⟩
    ⟨{ product := ⟨"a", some 10, none⟩, quantity := 1 }, by simp, rfl⟩).1
  rw [h]
  decide

namespace BasketStore

/-- Entrywise view of `removeItem` of the basket store, mirroring
`CartStore.removeStep`. -/
def removeStep (productId : String) (item : BasketItem) : Option BasketItem :=
  if item.product._id == productId then
    if item.quantity > 1 then some { item with quantity := item.quantity - 1 }
    else none
  else some item

lemma basket_removeItem_foldl_aux (productId : String) (l : List BasketItem) :
    ∀ acc : List BasketItem,
      List.foldl
        (fun acc item =>
          if item.product._id == productId then
            if item.quantity > 1 then
              acc ++ [{ item with quantity := item.quantity - 1 }]
            else acc
          else acc ++ [item])
        acc l
      = acc ++ l.filterMap (removeStep productId) := by
  induction l with
  | nil => intro acc; simp
  | cons x xs ih =>
      intro acc
      rw [List.foldl_cons, ih]
      by_cases hb : x.product._id = productId
      · by_cases hq : x.quantity > 1
        · simp [removeStep, hb, hq]
        · simp [removeStep, hb, hq]
      · simp [removeStep, hb]

lemma basket_removeItem_eq_filterMap (state : BasketState) (productId : String) :
    removeItem state productId = state.filterMap (removeStep productId) := by
  have h := basket_removeItem_foldl_aux productId state
  simpa [removeItem] using h []

end BasketStore

lemma find?_toCartItem (pid : String) (l : BasketState) :
    (l.map BasketItem.toCartItem).find? (fun it => it.product._id == pid)
      = (l.find? (fun it => it.product._id == pid)).map BasketItem.toCartItem := by
  induction l with
  | nil => simp
  | cons x xs ih =>
      simp only [List.map_cons, List.find?_cons]
      cases hb : x.product._id == pid with
      | false =>
          have hb' : ((BasketItem.toCartItem x).product._id == pid) = false := hb
          rw [hb']
          exact ih
      | true =>
          have hb' : ((BasketItem.toCartItem x).product._id == pid) = true := hb
          rw [hb']
          rfl

lemma addItem_toCartItem (p : Product) (b : BasketState) :
    (BasketStore.addItem b p).map BasketItem.toCartItem
      = CartStore.addItem (b.map BasketItem.toCartItem) p := by
  cases hfind : b.find? (fun it => it.product._id == p._id) with
  | none =>
      have hc : (b.map BasketItem.toCartItem).find?
          (fun it => it.product._id == p._id) = none := by
        rw [find?_toCartItem, hfind]
        rfl
      simp only [BasketStore.addItem, hfind, CartStore.addItem, hc]
      simp [BasketItem.toCartItem]
  | some e =>
      have hc : (b.map BasketItem.toCartItem).find?
          (fun it => it.product._id == p._id)
          = some (BasketItem.toCartItem e) := by
        rw [find?_toCartItem, hfind]
        rfl
      simp only [BasketStore.addItem, hfind, CartStore.addItem, hc]
      rw [List.map_map, List.map_map]
      congr 1
      funext it
      by_cases hb : it.product._id = p._id <;>
        simp [BasketItem.toCartItem, hb]

lemma removeItem_toCartItem (id : String) (b : BasketState) :
    (BasketStore.removeItem b id).map BasketItem.toCartItem
      = CartStore.removeItem (b.map BasketItem.toCartItem) id := by
  rw [BasketStore.basket_removeItem_eq_filterMap, CartStore.removeItem_eq_filterMap,
    List.map_filterMap, List.filterMap_map]
  congr 1
  funext a
  by_cases hb : a.product._id = id
  · by_cases hq : a.quantity > 1 <;>
      simp [BasketStore.removeStep, CartStore.removeStep,
        BasketItem.toCartItem, hb, hq, Function.comp]
  · simp [BasketStore.removeStep, CartStore.removeStep,
      BasketItem.toCartItem, hb, Function.comp]

lemma step_toCartItem (op : StoreOp) (b : BasketState) :
    (BasketStore.step b op).map BasketItem.toCartItem
      = CartStore.step (b.map BasketItem.toCartItem) op := by
  cases op with
  | add p => exact addItem_toCartItem p b
  | remove id => exact removeItem_toCartItem id b
  | clear => rfl

lemma foldl_step_toCartItem (ops : List StoreOp) :
    ∀ b : BasketState,
      (ops.foldl BasketStore.step b).map BasketItem.toCartItem
        = ops.foldl CartStore.step (b.map BasketItem.toCartItem) := by
  induction ops with
  | nil => intro b; rfl
  | cons op ops ih =>
      intro b
      rw [List.foldl_cons, List.foldl_cons, ih, step_toCartItem]

lemma run_toCartItem (ops : List StoreOp) :
    (BasketStore.run ops).map BasketItem.toCartItem = CartStore.run ops := by
  rw [BasketStore.run, CartStore.run]
  exact foldl_step_toCartItem ops []

lemma getTotalPrice_toCartItem (b : BasketState) :
    BasketStore.getTotalPrice b
      = CartStore.getTotalPrice (b.map BasketItem.toCartItem) := by
  simp only [BasketStore.getTotalPrice, CartStore.getTotalPrice]
  rw [foldl_add_eq_sum (fun it : BasketItem =>
      (it.product.price.getD 0) * (it.quantity : ℚ)) b 0,
    foldl_add_eq_sum (fun it : CartItem =>
      (it.product.price.getD 0) * (it.quantity : ℚ)) (b.map BasketItem.toCartItem) 0,
    List.map_map]
  rfl

lemma getItemCount_toCartItem (b : BasketState) (id : String) :
    BasketStore.getItemCount b id
      = CartStore.getItemCount (b.map BasketItem.toCartItem) id := by
  rw [CartStore.getItemCount_eq_find?, find?_toCartItem]
  cases h : b.find? (fun it => it.product._id == id) with
  | none => simp [BasketStore.getItemCount, h]
  | some e => simp [BasketStore.getItemCount, h, BasketItem.toCartItem]

/-- C5: the cart store and the basket store implement the same contract:
any sequence of operations run from the empty state on both stores yields
the same item sequence (under the field-for-field identification of their
item records) and identical `getTotalPrice`, `getItemCount` and
`getGroupedItems` results. -/
theorem C5_cart_basket_equivalent (ops : List StoreOp) :
    (BasketStore.run ops).map BasketItem.toCartItem = CartStore.run ops
  ∧ BasketStore.getTotalPrice (BasketStore.run ops)
      = CartStore.getTotalPrice (CartStore.run ops)
  ∧ (∀ id, BasketStore.getItemCount (BasketStore.run ops) id
      = CartStore.getItemCount (CartStore.run ops) id)
  ∧ (BasketStore.getGroupedItems (BasketStore.run ops)).map BasketItem.toCartItem
      = CartStore.getGroupedItems (CartStore.run ops) := by
  have hrun := run_toCartItem ops
  refine ⟨hrun, ?_, ?_, hrun⟩
  · rw [getTotalPrice_toCartItem, hrun]
  · intro id
    rw [getItemCount_toCartItem, hrun]

/-- C8: when the `stripe-signature` header is missing or the webhook
secret is unset, the handler answers with an HTTP 400 error response; and
in every case its result is independent of the request body, reflecting
that it performs no signature verification and no event handling. -/
theorem C8_webhook_missing_config (body : String) (sig secret : Option String) :
    ((sig = none ∨ secret = none) →
      ∃ r, Webhook.POST body sig secret = some r ∧ r.status = 400)
  ∧ (∀ b₁ b₂ : String,
      Webhook.POST b₁ sig secret = Webhook.POST b₂ sig secret) := by
  constructor
  · rintro (rfl | rfl)
    · exact ⟨{ status := 400, error := "No signature" }, rfl, rfl⟩
    · by_cases h : Webhook.truthy sig = true
      · refine ⟨{ status := 400, error := "Stripe webhook secret is not set" },
          ?_, rfl⟩
        have h2 : Webhook.truthy (none : Option String) = false := rfl
        simp [Webhook.POST, h, h2]
      · refine ⟨{ status := 400, error := "No signature" }, ?_, rfl⟩
        simp only [Bool.not_eq_true] at h
        simp [Webhook.POST, h]
  · intro b₁ b₂
    rfl

/-- Witness for C8: a request with a body but no signature header gets a
400 response. -/
theorem C8_webhook_missing_config_witness :
    ∃ r, Webhook.POST "payload" none (some "whsec_x") = some r
      ∧ r.status = 400 :=
  (C8_webhook_missing_config "payload" none (some "whsec_x")).1 (Or.inl rfl)

/-- Counterexample to C10 as stated: a present-but-empty
`stripe-signature` header is falsy in JavaScript, so even with the secret
set the handler returns a 400 response rather than completing without a
response value. -/
theorem C10_counterexample :
    Webhook.POST "payload" (some "") (some "whsec_x") ≠ none := by
  decide

/-- C10 (amended): when the `stripe-signature` header is present with a
non-empty value and the webhook secret is set to a non-empty string, the
handler falls off the end of the function and returns `undefined` — no
response value at all. -/
theorem C10_webhook_returns_undefined (body sigv secretv : String)
    (hs : sigv ≠ "") (hw : secretv ≠ "") :
    Webhook.POST body (some sigv) (some secretv) = none := by
  simp [Webhook.POST, Webhook.truthy, hs, hw]

/-- Witness for the amended C10 at a concrete request. -/
theorem C10_webhook_returns_undefined_witness :
    Webhook.POST "payload" (some "t=1,v1=abc") (some "whsec_x") = none :=
  C10_webhook_returns_undefined "payload" "t=1,v1=abc" "whsec_x"
    (by decide) (by decide)
